import Mathlib

/-!
Shallow embedding of the resilient multi-source retrieval pipeline of
`src/lib/scrapeEngine.ts` (the 8-strategy variant, which the spec treats as
authoritative) together with proofs of the spec's testable properties.

Modelling conventions:
* JavaScript strings are modelled as Lean `String` (a list of characters);
  `String.length` stands for JS `.length` (the distinction between UTF-16
  units and code points is immaterial for the ASCII-level reasoning here).
* The DOM facility (`DOMParser`, `querySelectorAll`, `innerText`,
  `innerHTML`) and the turndown HTML→Markdown converter are external
  collaborators of the core (spec §9); they are modelled as an abstract
  `DomOracle` record of pure functions.
* Every network interaction of a strategy is modelled by a `FetchOut` value
  recorded in an `Env`: the fetch either threw (network error / timeout
  abort), returned a non-ok status, or returned a payload.  JSON envelopes
  whose payload field may be absent are modelled with `Option`.
* The progress callback `onLayerUpdate` is modelled by a trace: every
  `updateLayer` call appends the emitted snapshot (annotated with the
  1-based layer index and the status written) to `RunState.trace`.
-/

namespace Unweave

/-- JS whitespace (the characters relevant to `\s`, `trim()`): space, tab,
newline, carriage return, vertical tab, form feed, NBSP. -/
def isWs (c : Char) : Bool :=
  c = ' ' || c = '\t' || c = '\n' || c = '\r' || c = '\x0b' || c = '\x0c' || c = ' '

/-- Drop leading JS whitespace. -/
def trimLeft (l : List Char) : List Char := l.dropWhile isWs

/-- Drop trailing JS whitespace. -/
def trimRight (l : List Char) : List Char := (l.reverse.dropWhile isWs).reverse

/-- JS `String.prototype.trim()` on the character list. -/
def trimChars (l : List Char) : List Char := trimRight (trimLeft l)

/-- What a maximal run of `n` consecutive newlines becomes under the
JS replacement `replace(/\n{3,}/g, "\n\n")`: runs of three or more collapse
to exactly two, shorter runs are kept. -/
def padNl (n : Nat) : List Char :=
  if 3 ≤ n then ['\n', '\n'] else List.replicate n '\n'

/-- Worker for the blank-line collapse: `n` counts the newlines of the run
currently being read. -/
def collapseRunsAux : List Char → Nat → List Char
  | [], n => padNl n
  | c :: cs, n =>
    if c = '\n' then collapseRunsAux cs (n + 1)
    else padNl n ++ (c :: collapseRunsAux cs 0)

/-- JS `markdown.replace(/\n{3,}/g, "\n\n")`: every maximal run of three or
more consecutive newlines becomes exactly two newlines. -/
def collapseRuns (l : List Char) : List Char := collapseRunsAux l 0

/-- The blank-line normalisation applied by `cleanHtmlToMarkdown`
(scrapeEngine.ts line 95): `markdown.replace(/\n{3,}/g, "\n\n").trim()`. -/
def collapseMd (s : String) : String := String.mk (trimChars (collapseRuns s.data))

/-- Does the list start with two newlines?  (Helper for `hasTripleNl`.) -/
def isNlNl : List Char → Bool
  | c :: d :: _ => c = '\n' && d = '\n'
  | _ => false

/-- Does the list contain three consecutive newlines anywhere? -/
def hasTripleNl : List Char → Bool
  | [] => false
  | c :: cs => (c = '\n' && isNlNl cs) || hasTripleNl cs

/-- JS `markdown.split(/\s+/)` as a mode machine over the characters:
`none` means a separator run has just been consumed, `some acc` means a
token is being accumulated (in reverse).  Splitting keeps the empty
boundary tokens that JS produces at a leading or trailing separator. -/
def jsSplitAux : List Char → Option (List Char) → List (List Char)
  | [], none => [[]]
  | [], some acc => [acc.reverse]
  | c :: cs, none =>
    if isWs c then jsSplitAux cs none else jsSplitAux cs (some [c])
  | c :: cs, some acc =>
    if isWs c then acc.reverse :: jsSplitAux cs none
    else jsSplitAux cs (some (c :: acc))

/-- JS `markdown.split(/\s+/)` (split on maximal whitespace runs). -/
def jsSplitWs (l : List Char) : List (List Char) := jsSplitAux l (some [])

/-- `markdown.split(/\s+/).filter(Boolean).length` (scrapeEngine.ts
line 285): the number of non-empty tokens. -/
def jsWordCount (l : List Char) : Nat :=
  ((jsSplitWs l).filter (fun t => !t.isEmpty)).length

/-- Spec-side word count: the number of maximal non-whitespace runs,
computed by a single scan carrying an "inside a word" flag. -/
def countWordsAux : List Char → Bool → Nat
  | [], _ => 0
  | c :: cs, inw =>
    if isWs c then countWordsAux cs false
    else (if inw then 0 else 1) + countWordsAux cs true

/-- Spec-side word count ("split final Markdown on whitespace runs, count
non-empty tokens", spec §4.5). -/
def countWords (l : List Char) : Nat := countWordsAux l false

/-! ### The DOM / turndown collaborator -/

/-- The DOM parse/query/serialize facility and the turndown converter,
which the core uses but does not implement (spec §9).  Each field is the
pure input/output behaviour of one composite use the engine makes of it. -/
structure DomOracle where
  /-- `doc.body.innerText` after removing `script, style, noscript, meta,
  link` elements (isSpaShell lines 35-37), before the JS `trim()`. -/
  strippedInnerText : String → String
  /-- `doc.body.innerHTML` after the same removal (isSpaShell line 39). -/
  strippedBodyHtml : String → String
  /-- `cleanHtmlToMarkdown` lines 68-92: parse, remove the noise-selector
  elements, pick the first matching content selector (falling back to the
  body) and return its `innerHTML`. -/
  extractContent : String → String
  /-- `td.turndown`: the turndown HTML→Markdown conversion (atx headings,
  fenced code blocks, `-` bullets, inlined links). -/
  turndown : String → String

/-! ### The four empty-root patterns of `spaPatterns` (lines 40-45)

The regexes are
`/<div[^>]+id=["']app["'][^>]*>\s*<\/div>/i` (likewise `root`, `__next`)
and `/data-page=["'][^"']+["']/i`; `p.test(bodyHtml)` asks whether a match
exists anywhere.  Existence of a backtracking match decomposes exactly as
follows: `[^>]+` may stop at any point before the first `>` (so every
split up to the first `>` is tried), the closing `[^>]*>` necessarily ends
at the first `>` (the class cannot cross one), `\s*<\/div>` necessarily
consumes the whole whitespace run (`<` is not whitespace), and the quote
classes accept either quote independently. -/

/-- The quote class `["']`. -/
def isQuoteChar (c : Char) : Bool := c = '"' || c.val = 39

/-- Case-insensitive literal prefix (the `/i` flag on ASCII patterns):
consume `pat` from the front of `l`, returning the remainder. -/
def stripCI : List Char → List Char → Option (List Char)
  | [], l => some l
  | _ :: _, [] => none
  | p :: ps, c :: cs => if Char.toLower p = Char.toLower c then stripCI ps cs else none

/-- `\s*<\/div>` at the start of the input: skip the whitespace run, then
the closing tag, case-insensitively. -/
def closeDiv (m : List Char) : Bool := (stripCI "</div>".data (m.dropWhile isWs)).isSome

/-- `[^>]*>\s*<\/div>` at the start of the input: everything up to the
first `'>'` is consumed by the class, then `closeDiv`. -/
def scanGt : List Char → Bool
  | [] => false
  | c :: cs => if c = '>' then closeDiv cs else scanGt cs

/-- `id=["']<name>["'][^>]*>\s*<\/div>` at the start of the input. -/
def divTail (name : List Char) (m : List Char) : Bool :=
  match stripCI "id=".data m with
  | some (q :: m2) =>
    isQuoteChar q &&
      (match stripCI name m2 with
       | some (q2 :: m3) => isQuoteChar q2 && scanGt m3
       | _ => false)
  | _ => false

/-- `[^>]+` followed by `divTail`: try `divTail` after each non-empty
prefix of non-`'>'` characters. -/
def divScan (name : List Char) : List Char → Bool
  | [] => false
  | c :: cs => if c = '>' then false else (divTail name cs || divScan name cs)

/-- A match of `/<div[^>]+id=["']<name>["'][^>]*>\s*<\/div>/i` starting at
the head of `l`. -/
def matchDivAt (name : List Char) (l : List Char) : Bool :=
  match stripCI "<div".data l with
  | some m => divScan name m
  | none => false

/-- `[^"']*["']` at the start of the input: the closing quote is the first
quote character. -/
def quoteScan : List Char → Bool
  | [] => false
  | c :: cs => if isQuoteChar c then true else quoteScan cs

/-- `[^"']+["']` at the start of the input. -/
def dataPageTail : List Char → Bool
  | [] => false
  | c :: cs => !isQuoteChar c && quoteScan cs

/-- A match of `/data-page=["'][^"']+["']/i` starting at the head of `l`. -/
def matchDataPageAt (l : List Char) : Bool :=
  match stripCI "data-page=".data l with
  | some (q :: m) => isQuoteChar q && dataPageTail m
  | _ => false

/-- `p.test s`: does a match of the pattern start at some position? -/
def regexTestAnywhere (p : List Char → Bool) : List Char → Bool
  | [] => p []
  | c :: cs => p (c :: cs) || regexTestAnywhere p cs

/-- `spaPatterns.some (p => p.test bodyHtml))` (lines 40-46): one of the
four empty-root patterns matches the body markup. -/
def spaPatternsTest (bodyHtml : List Char) : Bool :=
  regexTestAnywhere (matchDivAt "app".data) bodyHtml
  || regexTestAnywhere (matchDivAt "root".data) bodyHtml
  || regexTestAnywhere (matchDivAt "__next".data) bodyHtml
  || regexTestAnywhere matchDataPageAt bodyHtml

/-! ### Validators (scrapeEngine.ts lines 34-64) -/

/-- `isSpaShell` (lines 34-47): true when the HTML is a JS SPA shell with
no real readable content — the stripped visible text, trimmed, is shorter
than 150 characters, or an empty-root pattern matches the remaining body
markup. -/
def isSpaShell (d : DomOracle) (html : String) : Bool :=
  let textContent := String.mk (trimChars (d.strippedInnerText html).data)
  if textContent.length < 150 then true
  else spaPatternsTest (d.strippedBodyHtml html).data

/-- Does `l` start with `pat`? -/
def startsWith : List Char → List Char → Bool
  | [], _ => true
  | _ :: _, [] => false
  | p :: ps, c :: cs => p = c && startsWith ps cs

/-- JS `String.prototype.includes`: does `l` contain `pat` as a contiguous
substring? -/
def containsSub (pat : List Char) : List Char → Bool
  | [] => pat.isEmpty
  | c :: cs => startsWith pat (c :: cs) || containsSub pat cs

/-- The bot-wall failure markers searched for (lowercased) in the Jina
response (lines 57-60). -/
def jinaMarkers : List String :=
  ["warning: target url returned error", "captcha", "403: forbidden", "access denied"]

/-- One step of `eqLineAfter`: consume `'='`s, then require a newline. -/
def eqLineRest : List Char → Option (List Char)
  | [] => none
  | c :: cs => if c = '=' then eqLineRest cs else if c = '\n' then some cs else none

/-- Parse `=+\n` (one or more equality signs followed by a newline),
returning the remainder on success. -/
def eqLine : List Char → Option (List Char)
  | [] => none
  | c :: cs => if c = '=' then eqLineRest cs else none

/-- Given the characters after a line-initial `'#'`, find the end of that
line and return the remainder after its terminating newline (the `.*\n`
part of the regex); `none` when the line is unterminated. -/
def restAfterLine : List Char → Option (List Char)
  | [] => none
  | c :: cs => if c = '\n' then some cs else restAfterLine cs

/-- Attempt the regex `^#.*\n=+\n` at the current position (which the
caller guarantees to be a line start): a line starting with `#`, followed
by a line consisting solely of one or more `=`.  Returns the remainder
after the match. -/
def matchHdrAt (l : List Char) : Option (List Char) :=
  match l with
  | [] => none
  | c :: cs => if c = '#' then (restAfterLine cs).bind eqLine else none

/-- Scan for the first (leftmost) match of `^#.*\n=+\n` in multiline mode
and remove it; the flag records whether the current position is a line
start. -/
def stripHdrAux : List Char → Bool → List Char
  | [], _ => []
  | c :: cs, atStart =>
    if atStart then
      match matchHdrAt (c :: cs) with
      | some tail => tail
      | none => c :: stripHdrAux cs (c = '\n')
    else c :: stripHdrAux cs (c = '\n')

/-- JS `text.replace(/^#.*\n=+\n/m, "")` (line 62): remove the first
title/separator header line block. -/
def stripFirstHdr (l : List Char) : List Char := stripHdrAux l true

/-- `isJinaError` (lines 53-64): the Jina response is a bot-wall / error
page when it is empty or shorter than 100 characters, its lowercasing
contains one of the failure markers, or stripping the title/separator
header block and trimming leaves fewer than 100 characters. -/
def isJinaError (text : String) : Bool :=
  if text = "" || text.length < 100 then true
  else
    let lower := text.data.map Char.toLower
    if (jinaMarkers.map String.data).any (fun m => containsSub m lower) then true
    else decide ((trimChars (stripFirstHdr text.data)).length < 100)

/-! ### Markdown normalisation (scrapeEngine.ts lines 66-104) -/

/-- The provenance header template shared by both builders (lines 97 and
102): `---\nsource: ${url}\nscraped: ${ts}\nlayers_tried: ${k}\n---\n\n`. -/
def mkHeader (sourceUrl now : String) (layersTriedCount : Nat) : String :=
  "---\nsource: " ++ sourceUrl ++ "\nscraped: " ++ now ++
    "\nlayers_tried: " ++ toString layersTriedCount ++ "\n---\n\n"

/-- `cleanHtmlToMarkdown` (lines 66-99): extract the content root, convert
it with turndown, collapse blank lines, trim, and prepend the provenance
header.  `now` is the `new Date().toISOString()` value of the run. -/
def cleanHtmlToMarkdown (d : DomOracle) (html sourceUrl now : String)
    (layersTriedCount : Nat) : String :=
  mkHeader sourceUrl now layersTriedCount ++
    String.mk (trimChars (collapseRuns (d.turndown (d.extractContent html)).data))

/-- `buildJinaMarkdown` (lines 101-104): the Jina text is used as returned,
trimmed, with no HTML conversion, behind the same provenance header. -/
def buildJinaMarkdown (text sourceUrl now : String) (layersTriedCount : Nat) : String :=
  mkHeader sourceUrl now layersTriedCount ++ String.mk (trimChars text.data)

/-! ### Result assembly (scrapeEngine.ts lines 284-288) -/

/-- `LayerStatus` (lines 5-9). -/
inductive Status where
  | pending
  | trying
  | success
  | failed
deriving DecidableEq

/-- One per configured strategy: 1-based index, display name, state. -/
structure LayerStatus where
  layer : Nat
  name : String
  status : Status
deriving DecidableEq

/-- `ScrapeResult` (lines 11-16). -/
structure ScrapeResult where
  markdown : String
  layersTriedCount : Nat
  wordCount : Nat
  readTime : Nat
deriving DecidableEq

/-- `makeResult` (lines 284-288): word count by `split(/\s+/)` plus
`filter(Boolean)`, read time `Math.ceil(wordCount / 200)`, and the
`layersTriedCount` field hard-coded to `0` exactly as in the source. -/
def makeResult (markdown : String) : ScrapeResult :=
  let wordCount := jsWordCount markdown.data
  ⟨markdown, 0, wordCount, (wordCount + 199) / 200⟩

/-! ### The eight acquisition strategies (scrapeEngine.ts lines 106-282) -/

/-- Outcome of one `fetch` as the engine observes it: the awaited promise
threw (network error or `AbortSignal` timeout), resolved with `res.ok`
false, or resolved ok with a payload.  A payload of `Option String` models
a JSON envelope whose field of interest may be null or absent. -/
inductive FetchOut (α : Type) where
  | throws : FetchOut α
  | notOk : FetchOut α
  | ok : α → FetchOut α
deriving DecidableEq

/-- The network environment of one run: what each strategy's fetches
return, plus the timestamp the clock produces for the provenance header.
The request URLs, headers and timeout budgets of the source determine
which third-party service each field stands for but do not influence the
control flow being verified. -/
structure Env where
  now : String
  /-- AllOrigins envelope: `data?.contents` of layer 1. -/
  l1 : FetchOut (Option String)
  /-- ThingProxy body text of layer 2. -/
  l2 : FetchOut String
  /-- CodeTabs body text of layer 3. -/
  l3 : FetchOut String
  /-- Jina Reader body text of layer 4. -/
  l4 : FetchOut String
  /-- Google-Cache-through-AllOrigins envelope contents of layer 5. -/
  l5 : FetchOut (Option String)
  /-- Wayback availability query: `archived_snapshots?.closest?.url`. -/
  l6avail : FetchOut (Option String)
  /-- Wayback snapshot fetched through AllOrigins: envelope contents. -/
  l6snap : FetchOut (Option String)
  /-- 12ft.io-through-AllOrigins envelope contents of layer 7. -/
  l7 : FetchOut (Option String)
  /-- Final AllOrigins attempt: envelope contents of layer 8. -/
  l8 : FetchOut (Option String)

/-- Layer 1 (lines 129-142): AllOrigins; accepted when the envelope has
truthy `contents` longer than 200 characters that is not an SPA shell. -/
def layer1Cand (d : DomOracle) (env : Env) (url : String) : Option String :=
  match env.l1 with
  | .ok (some contents) =>
    if contents ≠ "" ∧ 200 < contents.length ∧ isSpaShell d contents = false then
      some (cleanHtmlToMarkdown d contents url env.now 1)
    else none
  | _ => none

/-- Layer 2 (lines 145-158): ThingProxy; truthy body, length over 200, not
an SPA shell. -/
def layer2Cand (d : DomOracle) (env : Env) (url : String) : Option String :=
  match env.l2 with
  | .ok html =>
    if html ≠ "" ∧ 200 < html.length ∧ isSpaShell d html = false then
      some (cleanHtmlToMarkdown d html url env.now 2)
    else none
  | _ => none

/-- Layer 3 (lines 161-174): CodeTabs; same checks as layer 2. -/
def layer3Cand (d : DomOracle) (env : Env) (url : String) : Option String :=
  match env.l3 with
  | .ok html =>
    if html ≠ "" ∧ 200 < html.length ∧ isSpaShell d html = false then
      some (cleanHtmlToMarkdown d html url env.now 3)
    else none
  | _ => none

/-- Layer 4 (lines 177-198): Jina Reader; accepted when the bot-wall
detector `isJinaError` does not fire. -/
def layer4Cand (_d : DomOracle) (env : Env) (url : String) : Option String :=
  match env.l4 with
  | .ok text =>
    if isJinaError text = false then
      some (buildJinaMarkdown text url env.now 4)
    else none
  | _ => none

/-- Layer 5 (lines 201-216): Google Cache through AllOrigins; truthy
contents longer than 300 characters, not an SPA shell. -/
def layer5Cand (d : DomOracle) (env : Env) (url : String) : Option String :=
  match env.l5 with
  | .ok (some contents) =>
    if contents ≠ "" ∧ 300 < contents.length ∧ isSpaShell d contents = false then
      some (cleanHtmlToMarkdown d contents url env.now 5)
    else none
  | _ => none

/-- Layer 6 (lines 219-245): Wayback Machine; requires a truthy snapshot
URL from the availability query, then the snapshot through AllOrigins with
the 300-character and shell checks. -/
def layer6Cand (d : DomOracle) (env : Env) (url : String) : Option String :=
  match env.l6avail with
  | .ok (some snapshotUrl) =>
    if snapshotUrl ≠ "" then
      match env.l6snap with
      | .ok (some contents) =>
        if contents ≠ "" ∧ 300 < contents.length ∧ isSpaShell d contents = false then
          some (cleanHtmlToMarkdown d contents url env.now 6)
        else none
      | _ => none
    else none
  | _ => none

/-- Layer 7 (lines 248-263): 12ft.io through AllOrigins; 300-character and
shell checks. -/
def layer7Cand (d : DomOracle) (env : Env) (url : String) : Option String :=
  match env.l7 with
  | .ok (some contents) =>
    if contents ≠ "" ∧ 300 < contents.length ∧ isSpaShell d contents = false then
      some (cleanHtmlToMarkdown d contents url env.now 7)
    else none
  | _ => none

/-- Layer 8 (lines 266-279): the final AllOrigins attempt; 300-character
and shell checks. -/
def layer8Cand (d : DomOracle) (env : Env) (url : String) : Option String :=
  match env.l8 with
  | .ok (some contents) =>
    if contents ≠ "" ∧ 300 < contents.length ∧ isSpaShell d contents = false then
      some (cleanHtmlToMarkdown d contents url env.now 8)
    else none
  | _ => none

/-- The candidate of the 1-based strategy `k`: `some` markdown when the
strategy's fetches and validators accept, `none` when anything fails. -/
def layerCand (d : DomOracle) (env : Env) (url : String) : Nat → Option String
  | 1 => layer1Cand d env url
  | 2 => layer2Cand d env url
  | 3 => layer3Cand d env url
  | 4 => layer4Cand d env url
  | 5 => layer5Cand d env url
  | 6 => layer6Cand d env url
  | 7 => layer7Cand d env url
  | 8 => layer8Cand d env url
  | _ => none

/-! ### The orchestrator (scrapeEngine.ts lines 106-282) -/

/-- One invocation of the progress callback: the 1-based layer index and
status written by `updateLayer`, and the emitted copy-on-write snapshot. -/
structure TraceEntry where
  idx : Nat
  status : Status
  snapshot : List LayerStatus
deriving DecidableEq

/-- The mutable state of one run: the `layers` array and the sequence of
progress-callback invocations so far. -/
structure RunState where
  layers : List LayerStatus
  trace : List TraceEntry
deriving DecidableEq

/-- `{ ...layers[index], status }` (line 124). -/
def setStatus (e : LayerStatus) (s : Status) : LayerStatus := ⟨e.layer, e.name, s⟩

/-- `updateLayer` (lines 123-126): overwrite the status at 0-based index
`i` and invoke the callback with a fresh copy of the array. -/
def updateLayer (st : RunState) (i : Nat) (s : Status) : RunState :=
  let ls := st.layers.set i (setStatus (st.layers.getD i ⟨0, "", .pending⟩) s)
  ⟨ls, st.trace ++ [⟨i + 1, s, ls⟩]⟩

/-- The layer list created at pipeline start (lines 112-121). -/
def initLayers : List LayerStatus :=
  [⟨1, "AllOrigins", .pending⟩, ⟨2, "ThingProxy", .pending⟩,
   ⟨3, "CodeTabs", .pending⟩, ⟨4, "Jina Reader", .pending⟩,
   ⟨5, "Google Cache", .pending⟩, ⟨6, "Wayback Machine", .pending⟩,
   ⟨7, "12ft.io", .pending⟩, ⟨8, "HTMLRender.dev", .pending⟩]

/-- The sequential cascade: for each `(k, candidate)` in order, mark the
layer `trying`; on an accepted candidate mark `success` and stop, otherwise
mark `failed` and continue. -/
def driver : List (Nat × Option String) → RunState → RunState × Option String
  | [], st => (st, none)
  | (k, cand) :: rest, st =>
    let st1 := updateLayer st (k - 1) .trying
    match cand with
    | some md => (updateLayer st1 (k - 1) .success, some md)
    | none => driver rest (updateLayer st1 (k - 1) .failed)

/-- `scrapeUrl` (lines 106-282): run the eight strategies in order against
the recorded environment; return the assembled result of the first
accepted candidate, or throw `"All layers failed"` (line 281) after
exhausting all eight. -/
def scrapeUrl (d : DomOracle) (env : Env) (url : String) :
    RunState × Except String ScrapeResult :=
  match driver
      [(1, layer1Cand d env url), (2, layer2Cand d env url),
       (3, layer3Cand d env url), (4, layer4Cand d env url),
       (5, layer5Cand d env url), (6, layer6Cand d env url),
       (7, layer7Cand d env url), (8, layer8Cand d env url)]
      ⟨initLayers, []⟩ with
  | (st, some md) => (st, Except.ok (makeResult md))
  | (st, none) => (st, Except.error "All layers failed")

/-! ### Expected run shapes (used to state the orchestrator theorems) -/

/-- The strategy display names in order. -/
def layerNames : List String :=
  ["AllOrigins", "ThingProxy", "CodeTabs", "Jina Reader",
   "Google Cache", "Wayback Machine", "12ft.io", "HTMLRender.dev"]

/-- The snapshot whose 1-based layer `i` carries status `f i`. -/
def snapWith (f : Nat → Status) : List LayerStatus :=
  (List.range 8).map (fun i => ⟨i + 1, layerNames.getD i "", f (i + 1)⟩)

/-- Snapshot emitted when layer `k` is set to `trying`: layers before `k`
failed, `k` trying, the rest pending. -/
def snapTrying (k : Nat) : List LayerStatus :=
  snapWith (fun i => if i < k then .failed else if i = k then .trying else .pending)

/-- Snapshot emitted when layer `k` is set to `failed`: layers up to `k`
failed, the rest pending. -/
def snapFailed (k : Nat) : List LayerStatus :=
  snapWith (fun i => if i ≤ k then .failed else .pending)

/-- Snapshot emitted when layer `k` is set to `success`. -/
def snapSuccess (k : Nat) : List LayerStatus :=
  snapWith (fun i => if i < k then .failed else if i = k then .success else .pending)

/-- The two callback invocations of a failing layer `i`. -/
def tryFail (i : Nat) : List TraceEntry :=
  [⟨i, .trying, snapTrying i⟩, ⟨i, .failed, snapFailed i⟩]

/-- The full callback trace of a run that succeeds at layer `k`. -/
def expTraceS (k : Nat) : List TraceEntry :=
  ((List.range (k - 1)).map (fun i => tryFail (i + 1))).flatten ++
    [⟨k, .trying, snapTrying k⟩, ⟨k, .success, snapSuccess k⟩]

/-- The full callback trace of a run that exhausts all eight layers. -/
def expTraceF : List TraceEntry :=
  ((List.range 8).map (fun i => tryFail (i + 1))).flatten

/-! ### Concrete inputs used by the witnesses -/

/-- A trivial DOM/turndown collaborator: extraction and conversion are the
identity, no SPA pattern ever matches. -/
def demoDom : DomOracle := ⟨fun s => s, fun s => s, fun s => s, fun s => s⟩

/-- An SPA shell page: enough visible text to pass the length check (under
the identity-text demo collaborator) but carrying an empty `app` mount
div, so the empty-root pattern fires. -/
def demoShellHtml : String :=
  String.mk (List.replicate 150 'x') ++ "<div class=\"c\" id=\"app\"> </div>"

/-- An environment in which every fetch throws. -/
def envAllFail : Env :=
  ⟨"T", .throws, .throws, .throws, .throws, .throws, .throws, .throws, .throws, .throws⟩

/-- 201 characters: one above the layer-1/2/3 threshold. -/
def demoHtml : String := String.mk (List.replicate 201 'a')

/-- Exactly 200 characters: at the layer-1/2/3 threshold. -/
def demoHtml200 : String := String.mk (List.replicate 200 'a')

/-- 301 characters: one above the layer-5..8 threshold. -/
def demoHtml301 : String := String.mk (List.replicate 301 'a')

/-- Exactly 300 characters: at the layer-5..8 threshold. -/
def demoHtml300 : String := String.mk (List.replicate 300 'a')

/-- A Jina text the bot-wall detector accepts: 150 plain characters. -/
def demoJinaGood : String := String.mk (List.replicate 150 'b')

/-- A long Jina text that contains the `403: Forbidden` marker. -/
def demoJinaBad : String := String.mk (List.replicate 100 'b') ++ "403: Forbidden"

/-- Environment in which layer 1 returns an accepted 201-character page. -/
def envOk1 : Env :=
  ⟨"T", .ok (some demoHtml), .throws, .throws, .throws, .throws, .throws, .throws,
   .throws, .throws⟩

/-- Environment in which layer 1 returns a too-short page and layer 2 an
accepted one. -/
def envOk2 : Env :=
  ⟨"T", .ok (some "x"), .ok demoHtml, .throws, .throws, .throws, .throws, .throws,
   .throws, .throws⟩

/-- Environment in which layers 1-3 throw and layer 4 returns an accepted
Jina text. -/
def envOk4 : Env :=
  ⟨"T", .throws, .throws, .throws, .ok demoJinaGood, .throws, .throws, .throws,
   .throws, .throws⟩

/-- Environment in which layer 1 returns exactly 200 characters. -/
def env200 : Env :=
  ⟨"T", .ok (some demoHtml200), .throws, .throws, .throws, .throws, .throws, .throws,
   .throws, .throws⟩

/-- Environment in which layer 4 returns a marker-bearing text. -/
def envJinaBad : Env :=
  ⟨"T", .throws, .throws, .throws, .ok demoJinaBad, .throws, .throws, .throws,
   .throws, .throws⟩

/-! ## Lemmas about trimming -/

theorem dropWhile_dropWhile (p : Char → Bool) (l : List Char) :
    (l.dropWhile p).dropWhile p = l.dropWhile p := by
  induction l with
  | nil => rfl
  | cons c cs ih =>
    by_cases h : p c
    · simp [List.dropWhile_cons, h, ih]
    · simp [List.dropWhile_cons, h]

theorem trimLeft_idem (l : List Char) : trimLeft (trimLeft l) = trimLeft l :=
  dropWhile_dropWhile isWs l

theorem trimRight_idem (l : List Char) : trimRight (trimRight l) = trimRight l := by
  unfold trimRight
  rw [List.reverse_reverse, dropWhile_dropWhile]

theorem trimLeft_trimRight (l : List Char) (h : trimLeft l = l) :
    trimLeft (trimRight l) = trimRight l := by
  cases l with
  | nil => rfl
  | cons c cs =>
    have hc : isWs c = false := by
      by_cases hc : isWs c
      · exfalso
        have hlen := congrArg List.length h
        have hle : (cs.dropWhile isWs).length ≤ cs.length :=
          (List.dropWhile_suffix isWs).length_le
        simp [trimLeft, List.dropWhile_cons, hc] at hlen
        omega
      · simpa using hc
    unfold trimRight
    rw [List.reverse_cons, List.dropWhile_append]
    by_cases he : (List.dropWhile isWs cs.reverse).isEmpty
    · simp only [he, if_pos]
      simp [trimLeft, List.dropWhile_cons, hc]
    · simp only [he, if_neg, Bool.false_eq_true, not_false_iff]
      simp [trimLeft, List.dropWhile_cons, hc]

theorem trimChars_idem (l : List Char) : trimChars (trimChars l) = trimChars l := by
  unfold trimChars
  rw [trimLeft_trimRight (trimLeft l) (trimLeft_idem l), trimRight_idem]

/-! ## Lemmas about the blank-line collapse -/

theorem isNlNl_cons_false {c : Char} (hc : ¬c = '\n') (X : List Char) :
    isNlNl (c :: X) = false := by
  cases X with
  | nil => rfl
  | cons d r => simp [isNlNl, hc]

theorem isNlNl_cons_cons (a b : Char) (r : List Char) :
    isNlNl (a :: b :: r) = (a = '\n' && b = '\n') := rfl

theorem hasTripleNl_cons (c : Char) (cs : List Char) :
    hasTripleNl (c :: cs) = ((c = '\n' && isNlNl cs) || hasTripleNl cs) := rfl

theorem isNlNl_append {l : List Char} (h : isNlNl l = true) (t : List Char) :
    isNlNl (l ++ t) = true := by
  cases l with
  | nil => simp [isNlNl] at h
  | cons c l' =>
    cases l' with
    | nil => simp [isNlNl] at h
    | cons d r => simpa [isNlNl] using h

theorem hasTripleNl_append_right {a : List Char} (h : hasTripleNl a = true)
    (t : List Char) : hasTripleNl (a ++ t) = true := by
  induction a with
  | nil => simp [hasTripleNl] at h
  | cons c cs ih =>
    rw [List.cons_append]
    simp only [hasTripleNl, Bool.or_eq_true, Bool.and_eq_true] at h ⊢
    rcases h with ⟨h1, h2⟩ | h
    · exact Or.inl ⟨h1, isNlNl_append h2 t⟩
    · exact Or.inr (ih h)

theorem hasTripleNl_append_left {t : List Char} (h : hasTripleNl t = true)
    (a : List Char) : hasTripleNl (a ++ t) = true := by
  induction a with
  | nil => simpa using h
  | cons c cs ih =>
    rw [List.cons_append]
    simp only [hasTripleNl, Bool.or_eq_true]
    exact Or.inr ih

theorem hasTripleNl_of_within {l₁ l₂ : List Char} (h : l₂ <:+: l₁)
    (ht : hasTripleNl l₂ = true) : hasTripleNl l₁ = true := by
  obtain ⟨s, t, rfl⟩ := h
  rw [List.append_assoc]
  exact hasTripleNl_append_left (hasTripleNl_append_right ht t) s

theorem trimChars_within (l : List Char) : trimChars l <:+: l := by
  have h1 : trimLeft l <:+ l := List.dropWhile_suffix isWs
  have h2 : trimChars l <+: trimLeft l := by
    unfold trimChars trimRight
    have := List.dropWhile_suffix (l := (trimLeft l).reverse) isWs
    have hp : ((trimLeft l).reverse.dropWhile isWs).reverse <+: (trimLeft l).reverse.reverse :=
      List.reverse_prefix.mpr this
    simpa using hp
  exact h2.isInfix.trans h1.isInfix

theorem hasTripleNl_trimChars {l : List Char} (h : hasTripleNl l = false) :
    hasTripleNl (trimChars l) = false := by
  cases htr : hasTripleNl (trimChars l) with
  | false => rfl
  | true => exact absurd (hasTripleNl_of_within (trimChars_within l) htr) (by simp [h])

theorem hasTripleNl_padNl (n : Nat) : hasTripleNl (padNl n) = false := by
  unfold padNl
  split
  · decide
  · next hn =>
    have h2 : n < 3 := by omega
    interval_cases n <;> decide

theorem hasTripleNl_padNl_cons {c : Char} (n : Nat) (hc : ¬c = '\n') {X : List Char}
    (hX : hasTripleNl X = false) : hasTripleNl (padNl n ++ c :: X) = false := by
  have hcX : hasTripleNl (c :: X) = false := by
    simp [hasTripleNl, hc, hX]
  have hnn : isNlNl (c :: X) = false := isNlNl_cons_false hc X
  unfold padNl
  split
  · simp [hasTripleNl_cons, isNlNl_cons_cons, hnn, hcX, hc]
  · next hn =>
    have h2 : n < 3 := by omega
    interval_cases n <;>
      simp [List.replicate, hasTripleNl_cons, isNlNl_cons_cons, hnn, hcX, hc]

theorem hasTripleNl_collapseRunsAux (l : List Char) :
    ∀ n, hasTripleNl (collapseRunsAux l n) = false := by
  induction l with
  | nil => intro n; exact hasTripleNl_padNl n
  | cons c cs ih =>
    intro n
    unfold collapseRunsAux
    by_cases hc : c = '\n'
    · rw [if_pos hc]; exact ih (n + 1)
    · rw [if_neg hc]; exact hasTripleNl_padNl_cons n hc (ih 0)

theorem hasTripleNl_collapseRuns (l : List Char) :
    hasTripleNl (collapseRuns l) = false :=
  hasTripleNl_collapseRunsAux l 0

theorem hasTripleNl_replicate_ge {n : Nat} (h3 : 3 ≤ n) (rest : List Char) :
    hasTripleNl (List.replicate n '\n' ++ rest) = true := by
  obtain ⟨m, rfl⟩ : ∃ m, n = m + 3 := ⟨n - 3, by omega⟩
  simp [show m + 3 = (m + 1 + 1) + 1 by omega, List.replicate_succ, hasTripleNl, isNlNl]

theorem collapseRunsAux_eq_self (l : List Char) :
    ∀ n, hasTripleNl (List.replicate n '\n' ++ l) = false →
      collapseRunsAux l n = List.replicate n '\n' ++ l := by
  induction l with
  | nil =>
    intro n h
    have hn : ¬3 ≤ n := fun h3 => by
      rw [hasTripleNl_replicate_ge h3 []] at h; cases h
    unfold collapseRunsAux padNl
    rw [if_neg hn, List.append_nil]
  | cons c cs ih =>
    intro n h
    unfold collapseRunsAux
    by_cases hc : c = '\n'
    · subst hc
      rw [if_pos rfl]
      have hrw : List.replicate n '\n' ++ '\n' :: cs = List.replicate (n + 1) '\n' ++ cs := by
        simp [List.replicate_succ' n '\n', List.append_assoc]
      rw [hrw] at h ⊢
      exact ih (n + 1) h
    · rw [if_neg hc]
      have hn : ¬3 ≤ n := fun h3 => by
        rw [hasTripleNl_replicate_ge h3 (c :: cs)] at h; cases h
      have hcs : hasTripleNl cs = false := by
        cases htr : hasTripleNl cs with
        | false => rfl
        | true =>
          have : cs <:+: (List.replicate n '\n' ++ c :: cs) :=
            ⟨List.replicate n '\n' ++ [c], [], by simp⟩
          exact absurd (hasTripleNl_of_within this htr) (by simp [h])
      rw [ih 0 (by simpa using hcs)]
      unfold padNl
      rw [if_neg hn]
      simp

theorem collapseRuns_eq_self {l : List Char} (h : hasTripleNl l = false) :
    collapseRuns l = l := by
  simpa using collapseRunsAux_eq_self l 0 (by simpa using h)

/-- C6: the blank-line collapse of the normaliser (replace every run of
three or more newlines by exactly two, then trim) is idempotent: applied
to any string it has already produced, it returns that string unchanged. -/
theorem c6_collapse_idempotent (s : String) : collapseMd (collapseMd s) = collapseMd s := by
  unfold collapseMd
  have h1 : hasTripleNl (collapseRuns s.data) = false := hasTripleNl_collapseRuns s.data
  have h2 : hasTripleNl (trimChars (collapseRuns s.data)) = false := hasTripleNl_trimChars h1
  have h3 : collapseRuns (String.mk (trimChars (collapseRuns s.data))).data
      = trimChars (collapseRuns s.data) := collapseRuns_eq_self h2
  rw [h3, trimChars_idem]

/-! ## Lemmas about word counting -/

theorem jsSplitAux_countWords (l : List Char) :
    (((jsSplitAux l none).filter (fun t => !t.isEmpty)).length = countWordsAux l false)
    ∧ ∀ acc : List Char,
        ((jsSplitAux l (some acc)).filter (fun t => !t.isEmpty)).length
          = if acc.isEmpty then countWordsAux l false else 1 + countWordsAux l true := by
  induction l with
  | nil =>
    refine ⟨by simp [jsSplitAux, countWordsAux], ?_⟩
    intro acc
    cases acc with
    | nil => simp [jsSplitAux, countWordsAux]
    | cons a as => simp [jsSplitAux, countWordsAux]
  | cons c cs ih =>
    constructor
    · by_cases hw : isWs c
      · simp [jsSplitAux, countWordsAux, hw, ih.1]
      · simpa [jsSplitAux, countWordsAux, hw] using ih.2 [c]
    · intro acc
      by_cases hw : isWs c
      · cases acc with
        | nil => simp [jsSplitAux, countWordsAux, hw, ih.1]
        | cons a as => simp [jsSplitAux, countWordsAux, hw, ih.1, Nat.add_comm]
      · cases acc with
        | nil => simpa [jsSplitAux, countWordsAux, hw] using ih.2 [c]
        | cons a as => simpa [jsSplitAux, countWordsAux, hw] using ih.2 (c :: a :: as)

/-- The engine's `split(/\s+/).filter(Boolean).length` computes the number
of maximal non-whitespace runs of the string. -/
theorem jsWordCount_eq_countWords (l : List Char) : jsWordCount l = countWords l := by
  unfold jsWordCount jsSplitWs countWords
  simpa using (jsSplitAux_countWords l).2 []

/-! ## The orchestrator characterisation -/

/-- Complete characterisation of one run of `scrapeUrl`: either some first
strategy `k` is accepted — all earlier candidates are rejected, the final
layers are `snapSuccess k`, the callback trace is `expTraceS k` and the
result is `makeResult` of strategy `k`'s markdown — or all eight
candidates are rejected, the final layers are all failed, the trace is
`expTraceF` and the run throws the exhaustion error. -/
theorem scrapeUrl_run_spec (d : DomOracle) (env : Env) (url : String) :
    (∃ k md, 1 ≤ k ∧ k ≤ 8 ∧ layerCand d env url k = some md ∧
      (∀ j, 1 ≤ j → j < k → layerCand d env url j = none) ∧
      scrapeUrl d env url = (⟨snapSuccess k, expTraceS k⟩, Except.ok (makeResult md)))
    ∨ ((∀ j, 1 ≤ j → j ≤ 8 → layerCand d env url j = none) ∧
      scrapeUrl d env url = (⟨snapFailed 8, expTraceF⟩, Except.error "All layers failed")) := by
  cases h1 : layer1Cand d env url with
  | some md =>
    refine Or.inl ⟨1, md, by omega, by omega, h1, fun j hj1 hj2 => by omega, ?_⟩
    unfold scrapeUrl
    rw [h1]
    rfl
  | none =>
  cases h2 : layer2Cand d env url with
  | some md =>
    refine Or.inl ⟨2, md, by omega, by omega, h2, ?_, ?_⟩
    · intro j hj1 hj2
      interval_cases j
      exact h1
    · unfold scrapeUrl
      rw [h1, h2]
      rfl
  | none =>
  cases h3 : layer3Cand d env url with
  | some md =>
    refine Or.inl ⟨3, md, by omega, by omega, h3, ?_, ?_⟩
    · intro j hj1 hj2
      interval_cases j
      · exact h1
      · exact h2
    · unfold scrapeUrl
      rw [h1, h2, h3]
      rfl
  | none =>
  cases h4 : layer4Cand d env url with
  | some md =>
    refine Or.inl ⟨4, md, by omega, by omega, h4, ?_, ?_⟩
    · intro j hj1 hj2
      interval_cases j
      · exact h1
      · exact h2
      · exact h3
    · unfold scrapeUrl
      rw [h1, h2, h3, h4]
      rfl
  | none =>
  cases h5 : layer5Cand d env url with
  | some md =>
    refine Or.inl ⟨5, md, by omega, by omega, h5, ?_, ?_⟩
    · intro j hj1 hj2
      interval_cases j
      · exact h1
      · exact h2
      · exact h3
      · exact h4
    · unfold scrapeUrl
      rw [h1, h2, h3, h4, h5]
      rfl
  | none =>
  cases h6 : layer6Cand d env url with
  | some md =>
    refine Or.inl ⟨6, md, by omega, by omega, h6, ?_, ?_⟩
    · intro j hj1 hj2
      interval_cases j
      · exact h1
      · exact h2
      · exact h3
      · exact h4
      · exact h5
    · unfold scrapeUrl
      rw [h1, h2, h3, h4, h5, h6]
      rfl
  | none =>
  cases h7 : layer7Cand d env url with
  | some md =>
    refine Or.inl ⟨7, md, by omega, by omega, h7, ?_, ?_⟩
    · intro j hj1 hj2
      interval_cases j
      · exact h1
      · exact h2
      · exact h3
      · exact h4
      · exact h5
      · exact h6
    · unfold scrapeUrl
      rw [h1, h2, h3, h4, h5, h6, h7]
      rfl
  | none =>
  cases h8 : layer8Cand d env url with
  | some md =>
    refine Or.inl ⟨8, md, by omega, by omega, h8, ?_, ?_⟩
    · intro j hj1 hj2
      interval_cases j
      · exact h1
      · exact h2
      · exact h3
      · exact h4
      · exact h5
      · exact h6
      · exact h7
    · unfold scrapeUrl
      rw [h1, h2, h3, h4, h5, h6, h7, h8]
      rfl
  | none =>
    refine Or.inr ⟨?_, ?_⟩
    · intro j hj1 hj2
      interval_cases j
      · exact h1
      · exact h2
      · exact h3
      · exact h4
      · exact h5
      · exact h6
      · exact h7
      · exact h8
    · unfold scrapeUrl
      rw [h1, h2, h3, h4, h5, h6, h7, h8]
      rfl

/-! ## Shape lemmas for the expected run states -/

theorem snapSuccess_statuses {k : Nat} (h1 : 1 ≤ k) (h8 : k ≤ 8) :
    (snapSuccess k).map LayerStatus.status
      = List.replicate (k - 1) Status.failed ++
          Status.success :: List.replicate (8 - k) Status.pending := by
  interval_cases k <;> decide

theorem snapFailed_statuses :
    (snapFailed 8).map LayerStatus.status = List.replicate 8 Status.failed := by
  decide

theorem snapSuccess_no_trying {k : Nat} (h1 : 1 ≤ k) (h8 : k ≤ 8) :
    ∀ e ∈ snapSuccess k, e.status ≠ Status.trying := by
  interval_cases k <;> decide

theorem snapFailed_no_trying : ∀ e ∈ snapFailed 8, e.status ≠ Status.trying := by
  decide

theorem mem_expTraceS_failed {k j : Nat} {s : List LayerStatus}
    (h : (⟨j, Status.failed, s⟩ : TraceEntry) ∈ expTraceS k) : 1 ≤ j ∧ j < k := by
  simp only [expTraceS, tryFail, List.mem_append, List.mem_flatten, List.mem_map,
    List.mem_range, List.mem_cons, List.not_mem_nil, or_false, TraceEntry.mk.injEq,
    reduceCtorEq, false_and, and_false, false_or] at h
  obtain ⟨l, ⟨a, ha, hl⟩, hmem⟩ := h
  subst hl
  simp only [List.mem_cons, List.not_mem_nil, or_false, TraceEntry.mk.injEq,
    reduceCtorEq, false_and, and_false, false_or] at hmem
  obtain ⟨hj, -⟩ := hmem
  omega

theorem mem_expTraceF_failed {j : Nat} {s : List LayerStatus}
    (h : (⟨j, Status.failed, s⟩ : TraceEntry) ∈ expTraceF) : 1 ≤ j ∧ j ≤ 8 := by
  simp only [expTraceF, tryFail, List.mem_flatten, List.mem_map, List.mem_range,
    List.mem_cons, List.not_mem_nil, or_false, TraceEntry.mk.injEq,
    reduceCtorEq, false_and, and_false, false_or] at h
  obtain ⟨l, ⟨a, ha, hl⟩, hmem⟩ := h
  subst hl
  simp only [List.mem_cons, List.not_mem_nil, or_false, TraceEntry.mk.injEq,
    reduceCtorEq, false_and, and_false, false_or] at hmem
  obtain ⟨hj, -⟩ := hmem
  omega

theorem trying_mem_expTraceS {k j : Nat} (h1 : 1 ≤ j) (hjk : j ≤ k) :
    (⟨j, Status.trying, snapTrying j⟩ : TraceEntry) ∈ expTraceS k := by
  rcases Nat.lt_or_ge j k with hlt | hge
  · apply List.mem_append_left
    simp only [List.mem_flatten, List.mem_map, List.mem_range]
    refine ⟨tryFail j, ⟨j - 1, by omega, by rw [show j - 1 + 1 = j by omega]⟩, ?_⟩
    simp [tryFail]
  · have hk : j = k := by omega
    subst hk
    apply List.mem_append_right
    simp

theorem trying_mem_expTraceF {j : Nat} (h1 : 1 ≤ j) (hj : j ≤ 8) :
    (⟨j, Status.trying, snapTrying j⟩ : TraceEntry) ∈ expTraceF := by
  simp only [expTraceF, List.mem_flatten, List.mem_map, List.mem_range]
  refine ⟨tryFail j, ⟨j - 1, by omega, by rw [show j - 1 + 1 = j by omega]⟩, ?_⟩
  simp [tryFail]

/-! ## Claim theorems about the orchestrator -/

/-- C2: for every run, the final layer sequence contains at most one
`success` (the replicate shape allows none or exactly one); every entry
before the success entry is `failed`, every entry after it `pending`; and
a run that exhausts all eight strategies leaves every entry `failed`. -/
theorem c2_layer_status_invariant (d : DomOracle) (env : Env) (url : String) :
    (∀ r, (scrapeUrl d env url).2 = Except.ok r →
      ∃ k, 1 ≤ k ∧ k ≤ 8 ∧
        (scrapeUrl d env url).1.layers.map LayerStatus.status
          = List.replicate (k - 1) Status.failed ++
              Status.success :: List.replicate (8 - k) Status.pending)
    ∧ ((scrapeUrl d env url).2 = Except.error "All layers failed" →
        (scrapeUrl d env url).1.layers.map LayerStatus.status
          = List.replicate 8 Status.failed) := by
  rcases scrapeUrl_run_spec d env url with ⟨k, md, hk1, hk8, hc, hprev, heq⟩ | ⟨hall, heq⟩
  · refine ⟨fun r hr => ⟨k, hk1, hk8, ?_⟩, fun he => ?_⟩
    · rw [heq]
      exact snapSuccess_statuses hk1 hk8
    · rw [heq] at he
      simp at he
  · refine ⟨fun r hr => ?_, fun he => ?_⟩
    · rw [heq] at hr
      simp at hr
    · rw [heq]
      exact snapFailed_statuses

/-- Witness for C2 at a concrete environment in which every fetch throws:
the exhaustion branch applies and every layer ends `failed`. -/
theorem c2_layer_status_invariant_witness :
    (scrapeUrl demoDom envAllFail "u").1.layers.map LayerStatus.status
      = List.replicate 8 Status.failed :=
  (c2_layer_status_invariant demoDom envAllFail "u").2 rfl

/-- C10: when `scrapeUrl` returns or throws, no layer is left in `trying`,
and the full callback trace is exactly the canonical transition sequence
(`pending → trying → {success, failed}` once per touched layer, each layer
reaching its terminal state before the next layer is set to `trying`):
`expTraceS k` for a run succeeding at `k`, `expTraceF` for exhaustion. -/
theorem c10_transition_discipline (d : DomOracle) (env : Env) (url : String) :
    (∀ e ∈ (scrapeUrl d env url).1.layers, e.status ≠ Status.trying)
    ∧ (∀ r, (scrapeUrl d env url).2 = Except.ok r →
        ∃ k, 1 ≤ k ∧ k ≤ 8 ∧ (scrapeUrl d env url).1.trace = expTraceS k)
    ∧ ((scrapeUrl d env url).2 = Except.error "All layers failed" →
        (scrapeUrl d env url).1.trace = expTraceF) := by
  rcases scrapeUrl_run_spec d env url with ⟨k, md, hk1, hk8, hc, hprev, heq⟩ | ⟨hall, heq⟩
  · refine ⟨?_, fun r hr => ⟨k, hk1, hk8, by rw [heq]⟩, fun he => ?_⟩
    · rw [heq]
      exact snapSuccess_no_trying hk1 hk8
    · rw [heq] at he
      simp at he
  · refine ⟨?_, fun r hr => ?_, fun he => by rw [heq]⟩
    · rw [heq]
      exact snapFailed_no_trying
    · rw [heq] at hr
      simp at hr

/-- Witness for C10 at the all-throwing environment: the final layers hold
no `trying` entry and the trace is the canonical exhaustion trace. -/
theorem c10_transition_discipline_witness :
    (∀ e ∈ (scrapeUrl demoDom envAllFail "u").1.layers, e.status ≠ Status.trying)
    ∧ (scrapeUrl demoDom envAllFail "u").1.trace = expTraceF :=
  ⟨(c10_transition_discipline demoDom envAllFail "u").1,
   (c10_transition_discipline demoDom envAllFail "u").2.2 rfl⟩

/-- C4: every run either returns exactly one complete `ScrapeResult` or
throws the single exhaustion error `"All layers failed"`; no other error is
ever surfaced, and every strategy that fails (for any reason: thrown
fetch, timeout, non-ok status, or validator rejection — all of which make
its candidate `none`) is followed by the next strategy being tried. -/
theorem c4_error_handling (d : DomOracle) (env : Env) (url : String) :
    ((∃ r, (scrapeUrl d env url).2 = Except.ok r) ∨
      (scrapeUrl d env url).2 = Except.error "All layers failed")
    ∧ (∀ e, (scrapeUrl d env url).2 = Except.error e → e = "All layers failed")
    ∧ (∀ j, 1 ≤ j → j < 8 →
        (∃ s, (⟨j, Status.failed, s⟩ : TraceEntry) ∈ (scrapeUrl d env url).1.trace) →
        ∃ s, (⟨j + 1, Status.trying, s⟩ : TraceEntry) ∈ (scrapeUrl d env url).1.trace) := by
  rcases scrapeUrl_run_spec d env url with ⟨k, md, hk1, hk8, hc, hprev, heq⟩ | ⟨hall, heq⟩
  · refine ⟨Or.inl ⟨makeResult md, by rw [heq]⟩, fun e he => ?_, fun j hj1 hj8 hmem => ?_⟩
    · rw [heq] at he
      simp at he
    · rw [heq] at hmem ⊢
      obtain ⟨s, hs⟩ := hmem
      have hjk := mem_expTraceS_failed hs
      exact ⟨snapTrying (j + 1), trying_mem_expTraceS (by omega) (by omega)⟩
  · refine ⟨Or.inr (by rw [heq]), fun e he => ?_, fun j hj1 hj8 hmem => ?_⟩
    · rw [heq] at he
      simpa using he.symm
    · rw [heq] at hmem ⊢
      obtain ⟨s, hs⟩ := hmem
      have hjk := mem_expTraceF_failed hs
      exact ⟨snapTrying (j + 1), trying_mem_expTraceF (by omega) (by omega)⟩

set_option maxRecDepth 8000 in
/-- Witness for C4 at an environment where strategy 1 is rejected (body
too short) and strategy 2 succeeds: layer 1's failure is followed by layer
2 being tried. -/
theorem c4_error_handling_witness :
    ∃ s, (⟨2, Status.trying, s⟩ : TraceEntry) ∈ (scrapeUrl demoDom envOk2 "u").1.trace :=
  (c4_error_handling demoDom envOk2 "u").2.2 1 (by omega) (by omega)
    ⟨snapFailed 1, by decide⟩

/-- C3: every returned result's `wordCount` is the number of non-empty
whitespace-delimited tokens of the full returned markdown (header
included), and `readTime` is the ceiling of `wordCount / 200` — pinned
down by the two-sided bound — hence at least 1 when any word is present
and 0 for an empty word count. -/
theorem c3_wordcount_readtime (d : DomOracle) (env : Env) (url : String)
    (r : ScrapeResult) (h : (scrapeUrl d env url).2 = Except.ok r) :
    r.wordCount = countWords r.markdown.data
    ∧ r.readTime = (r.wordCount + 199) / 200
    ∧ (r.wordCount ≤ 200 * r.readTime ∧ 200 * r.readTime < r.wordCount + 200)
    ∧ (0 < r.wordCount → 1 ≤ r.readTime)
    ∧ (r.wordCount = 0 → r.readTime = 0) := by
  rcases scrapeUrl_run_spec d env url with ⟨k, md, hk1, hk8, hc, hprev, heq⟩ | ⟨hall, heq⟩
  · rw [heq] at h
    simp only [Except.ok.injEq] at h
    subst h
    refine ⟨jsWordCount_eq_countWords md.data, rfl, ?_, ?_, ?_⟩
    · have hm := Nat.div_add_mod (jsWordCount md.data + 199) 200
      have hlt : (jsWordCount md.data + 199) % 200 < 200 := Nat.mod_lt _ (by norm_num)
      simp only [makeResult]
      omega
    · intro hpos
      have hm := Nat.div_add_mod (jsWordCount md.data + 199) 200
      have hlt : (jsWordCount md.data + 199) % 200 < 200 := Nat.mod_lt _ (by norm_num)
      simp only [makeResult] at hpos ⊢
      omega
    · intro hz
      simp only [makeResult] at hz ⊢
      rw [hz]
  · rw [heq] at h
    simp at h

set_option maxRecDepth 8000 in
/-- Witness for C3 at the environment where strategy 1 succeeds with a
201-character page. -/
theorem c3_wordcount_readtime_witness :
    (makeResult (cleanHtmlToMarkdown demoDom demoHtml "u" "T" 1)).wordCount
      = countWords (makeResult (cleanHtmlToMarkdown demoDom demoHtml "u" "T" 1)).markdown.data :=
  (c3_wordcount_readtime demoDom envOk1 "u"
    (makeResult (cleanHtmlToMarkdown demoDom demoHtml "u" "T" 1)) rfl).1

/-- Every accepted candidate's markdown starts with the provenance header
carrying the accepting strategy's own 1-based index, and a strategy-4
candidate's body is exactly the Jina text trimmed (no HTML conversion). -/
theorem layerCand_markdown_shape (d : DomOracle) (env : Env) (url : String)
    {k : Nat} {md : String} (h1 : 1 ≤ k) (h8 : k ≤ 8)
    (hc : layerCand d env url k = some md) :
    ∃ body : String, md = mkHeader url env.now k ++ body
      ∧ (k = 4 → ∃ t, env.l4 = FetchOut.ok t ∧ isJinaError t = false
          ∧ body = String.mk (trimChars t.data)) := by
  interval_cases k
  · replace hc : layer1Cand d env url = some md := hc
    unfold layer1Cand at hc
    split at hc
    · split at hc
      · rw [Option.some.injEq] at hc
        exact ⟨_, by rw [← hc]; rfl, by omega⟩
      · cases hc
    · cases hc
  · replace hc : layer2Cand d env url = some md := hc
    unfold layer2Cand at hc
    split at hc
    · split at hc
      · rw [Option.some.injEq] at hc
        exact ⟨_, by rw [← hc]; rfl, by omega⟩
      · cases hc
    · cases hc
  · replace hc : layer3Cand d env url = some md := hc
    unfold layer3Cand at hc
    split at hc
    · split at hc
      · rw [Option.some.injEq] at hc
        exact ⟨_, by rw [← hc]; rfl, by omega⟩
      · cases hc
    · cases hc
  · replace hc : layer4Cand d env url = some md := hc
    unfold layer4Cand at hc
    split at hc
    · next t heq =>
      split at hc
      · next hj =>
        rw [Option.some.injEq] at hc
        exact ⟨String.mk (trimChars t.data), by rw [← hc]; rfl,
          fun _ => ⟨t, heq, by simpa using hj, rfl⟩⟩
      · cases hc
    · cases hc
  · replace hc : layer5Cand d env url = some md := hc
    unfold layer5Cand at hc
    split at hc
    · split at hc
      · rw [Option.some.injEq] at hc
        exact ⟨_, by rw [← hc]; rfl, by omega⟩
      · cases hc
    · cases hc
  · replace hc : layer6Cand d env url = some md := hc
    unfold layer6Cand at hc
    split at hc
    · split at hc
      · split at hc
        · split at hc
          · rw [Option.some.injEq] at hc
            exact ⟨_, by rw [← hc]; rfl, by omega⟩
          · cases hc
        · cases hc
      · cases hc
    · cases hc
  · replace hc : layer7Cand d env url = some md := hc
    unfold layer7Cand at hc
    split at hc
    · split at hc
      · rw [Option.some.injEq] at hc
        exact ⟨_, by rw [← hc]; rfl, by omega⟩
      · cases hc
    · cases hc
  · replace hc : layer8Cand d env url = some md := hc
    unfold layer8Cand at hc
    split at hc
    · split at hc
      · rw [Option.some.injEq] at hc
        exact ⟨_, by rw [← hc]; rfl, by omega⟩
      · cases hc
    · cases hc

theorem string_eq_of_data {a b : String} (h : a.data = b.data) : a = b := by
  cases a
  cases b
  exact congrArg String.mk h

/-- `mkHeader` really is the delimited five-line block followed by a blank
line that the spec describes. -/
theorem mkHeader_shape (u n : String) (k : Nat) (B : String) :
    mkHeader u n k ++ B
      = "---\n" ++ "source: " ++ u ++ "\n" ++ "scraped: " ++ n ++ "\n"
          ++ "layers_tried: " ++ toString k ++ "\n" ++ "---\n" ++ "\n" ++ B := by
  apply string_eq_of_data
  simp only [mkHeader, String.data_append, List.append_assoc]
  rfl

/-- C5: every successful result's markdown is exactly the provenance block
`---`, `source: <original url>`, `scraped: <timestamp>`,
`layers_tried: <index of the succeeding strategy>`, `---`, a blank line,
then the body; the index named is the strategy whose final status is
`success`; and when the succeeding strategy is 4 the body is the returned
Jina text trimmed, with no HTML conversion applied. -/
theorem c5_provenance_header (d : DomOracle) (env : Env) (url : String)
    (r : ScrapeResult) (h : (scrapeUrl d env url).2 = Except.ok r) :
    ∃ k body, 1 ≤ k ∧ k ≤ 8 ∧
      r.markdown = "---\n" ++ "source: " ++ url ++ "\n" ++ "scraped: " ++ env.now ++ "\n"
        ++ "layers_tried: " ++ toString k ++ "\n" ++ "---\n" ++ "\n" ++ body
      ∧ ((scrapeUrl d env url).1.layers.map LayerStatus.status).getD (k - 1) Status.pending
          = Status.success
      ∧ (k = 4 → ∃ t, env.l4 = FetchOut.ok t ∧ isJinaError t = false
          ∧ body = String.mk (trimChars t.data)) := by
  rcases scrapeUrl_run_spec d env url with ⟨k, md, hk1, hk8, hc, hprev, heq⟩ | ⟨hall, heq⟩
  · rw [heq] at h
    simp only [Except.ok.injEq] at h
    subst h
    obtain ⟨body, hbody, h4⟩ := layerCand_markdown_shape d env url hk1 hk8 hc
    refine ⟨k, body, hk1, hk8, ?_, ?_, h4⟩
    · show (makeResult md).markdown = _
      rw [show (makeResult md).markdown = md from rfl, hbody, mkHeader_shape]
    · rw [heq, snapSuccess_statuses hk1 hk8]
      have hlen : (List.replicate (k - 1) Status.failed).length ≤ k - 1 := by simp
      rw [List.getD_append_right _ _ _ _ hlen]
      simp
  · rw [heq] at h
    simp at h

set_option maxRecDepth 8000 in
/-- Witness for C5 at the environment where strategies 1-3 throw and the
Jina Reader (strategy 4) returns an accepted text: the run's markdown has
the exact header shape with `layers_tried: 4` and the trimmed text body. -/
theorem c5_provenance_header_witness :
    ∃ k body, 1 ≤ k ∧ k ≤ 8 ∧
      (makeResult (buildJinaMarkdown demoJinaGood "u" "T" 4)).markdown
        = "---\n" ++ "source: " ++ "u" ++ "\n" ++ "scraped: " ++ envOk4.now ++ "\n"
          ++ "layers_tried: " ++ toString k ++ "\n" ++ "---\n" ++ "\n" ++ body
      ∧ ((scrapeUrl demoDom envOk4 "u").1.layers.map LayerStatus.status).getD (k - 1)
          Status.pending = Status.success
      ∧ (k = 4 → ∃ t, envOk4.l4 = FetchOut.ok t ∧ isJinaError t = false
          ∧ body = String.mk (trimChars t.data)) :=
  c5_provenance_header demoDom envOk4 "u"
    (makeResult (buildJinaMarkdown demoJinaGood "u" "T" 4)) rfl

/-- C7: for every HTML-origin strategy, a candidate whose raw length is
exactly the strategy's threshold (200 for strategies 1-3, 300 for
strategies 5-8) is rejected, and a candidate one character longer is
accepted provided the SPA-shell check passes. -/
theorem c7_min_length_boundary (d : DomOracle) (env : Env) (url : String) (c su : String) :
    ((env.l1 = FetchOut.ok (some c) → c.length = 200 → layer1Cand d env url = none)
      ∧ (env.l1 = FetchOut.ok (some c) → c.length = 201 → isSpaShell d c = false →
          layer1Cand d env url = some (cleanHtmlToMarkdown d c url env.now 1)))
    ∧ ((env.l2 = FetchOut.ok c → c.length = 200 → layer2Cand d env url = none)
      ∧ (env.l2 = FetchOut.ok c → c.length = 201 → isSpaShell d c = false →
          layer2Cand d env url = some (cleanHtmlToMarkdown d c url env.now 2)))
    ∧ ((env.l3 = FetchOut.ok c → c.length = 200 → layer3Cand d env url = none)
      ∧ (env.l3 = FetchOut.ok c → c.length = 201 → isSpaShell d c = false →
          layer3Cand d env url = some (cleanHtmlToMarkdown d c url env.now 3)))
    ∧ ((env.l5 = FetchOut.ok (some c) → c.length = 300 → layer5Cand d env url = none)
      ∧ (env.l5 = FetchOut.ok (some c) → c.length = 301 → isSpaShell d c = false →
          layer5Cand d env url = some (cleanHtmlToMarkdown d c url env.now 5)))
    ∧ ((env.l6avail = FetchOut.ok (some su) → env.l6snap = FetchOut.ok (some c) →
          c.length = 300 → layer6Cand d env url = none)
      ∧ (env.l6avail = FetchOut.ok (some su) → su ≠ "" →
          env.l6snap = FetchOut.ok (some c) → c.length = 301 → isSpaShell d c = false →
          layer6Cand d env url = some (cleanHtmlToMarkdown d c url env.now 6)))
    ∧ ((env.l7 = FetchOut.ok (some c) → c.length = 300 → layer7Cand d env url = none)
      ∧ (env.l7 = FetchOut.ok (some c) → c.length = 301 → isSpaShell d c = false →
          layer7Cand d env url = some (cleanHtmlToMarkdown d c url env.now 7)))
    ∧ ((env.l8 = FetchOut.ok (some c) → c.length = 300 → layer8Cand d env url = none)
      ∧ (env.l8 = FetchOut.ok (some c) → c.length = 301 → isSpaShell d c = false →
          layer8Cand d env url = some (cleanHtmlToMarkdown d c url env.now 8))) := by
  have hne201 : c.length = 201 → c ≠ "" := fun hl habs => by
    rw [habs] at hl
    simp [String.length] at hl
  have hne301 : c.length = 301 → c ≠ "" := fun hl habs => by
    rw [habs] at hl
    simp [String.length] at hl
  refine ⟨⟨?_, ?_⟩, ⟨?_, ?_⟩, ⟨?_, ?_⟩, ⟨?_, ?_⟩, ⟨?_, ?_⟩, ⟨?_, ?_⟩, ⟨?_, ?_⟩⟩
  · intro henv hlen
    unfold layer1Cand
    rw [henv]
    simp [hlen]
  · intro henv hlen hshell
    unfold layer1Cand
    rw [henv]
    simp [hlen, hshell, hne201 hlen]
  · intro henv hlen
    unfold layer2Cand
    rw [henv]
    simp [hlen]
  · intro henv hlen hshell
    unfold layer2Cand
    rw [henv]
    simp [hlen, hshell, hne201 hlen]
  · intro henv hlen
    unfold layer3Cand
    rw [henv]
    simp [hlen]
  · intro henv hlen hshell
    unfold layer3Cand
    rw [henv]
    simp [hlen, hshell, hne201 hlen]
  · intro henv hlen
    unfold layer5Cand
    rw [henv]
    simp [hlen]
  · intro henv hlen hshell
    unfold layer5Cand
    rw [henv]
    simp [hlen, hshell, hne301 hlen]
  · intro ha hs hlen
    unfold layer6Cand
    rw [ha]
    by_cases hsu : su = ""
    · simp [hsu]
    · simp [hsu, hs, hlen]
  · intro ha hsu hs hlen hshell
    unfold layer6Cand
    rw [ha]
    simp [hsu, hs, hlen, hshell, hne301 hlen]
  · intro henv hlen
    unfold layer7Cand
    rw [henv]
    simp [hlen]
  · intro henv hlen hshell
    unfold layer7Cand
    rw [henv]
    simp [hlen, hshell, hne301 hlen]
  · intro henv hlen
    unfold layer8Cand
    rw [henv]
    simp [hlen]
  · intro henv hlen hshell
    unfold layer8Cand
    rw [henv]
    simp [hlen, hshell, hne301 hlen]

set_option maxRecDepth 8000 in
/-- Witness for C7: a 200-character layer-1 body is rejected; a
201-character one (passing the shell check) is accepted. -/
theorem c7_min_length_boundary_witness :
    layer1Cand demoDom env200 "u" = none
    ∧ layer1Cand demoDom envOk1 "u"
        = some (cleanHtmlToMarkdown demoDom demoHtml "u" "T" 1) :=
  ⟨(c7_min_length_boundary demoDom env200 "u" demoHtml200 "x").1.1 rfl (by decide),
   (c7_min_length_boundary demoDom envOk1 "u" demoHtml "x").1.2 rfl (by decide) (by decide)⟩

/-- `isJinaError` as one boolean normal form. -/
theorem isJinaError_eq (t : String) :
    isJinaError t
      = (decide (t = "") || decide (t.length < 100)
          || (jinaMarkers.map String.data).any
              (fun m => containsSub m (t.data.map Char.toLower))
          || decide ((trimChars (stripFirstHdr t.data)).length < 100)) := by
  unfold isJinaError
  by_cases h1 : (decide (t = "") || decide (t.length < 100)) = true
  · rw [if_pos h1, h1]
    simp
  · have h1' : (decide (t = "") || decide (t.length < 100)) = false :=
      Bool.eq_false_iff.mpr h1
    rw [if_neg h1, h1']
    by_cases h2 : (jinaMarkers.map String.data).any
        (fun m => containsSub m (t.data.map Char.toLower)) = true
    · rw [if_pos h2, h2]
      simp
    · have h2' : (jinaMarkers.map String.data).any
          (fun m => containsSub m (t.data.map Char.toLower)) = false :=
        Bool.eq_false_iff.mpr h2
      rw [if_neg h2, h2']
      simp

/-- C8: the bot-wall detector of strategy 4 fires exactly when the text is
empty or shorter than 100 characters, or its lowercasing contains one of
the failure markers, or stripping the leading title/separator header block
and trimming leaves fewer than 100 characters; in particular a text
containing `403: Forbidden` is rejected even though the transport call
delivered it (`env.l4 = ok`). -/
theorem c8_bot_wall_detector (d : DomOracle) (env : Env) (url t : String) :
    (isJinaError t = true ↔
      ((t = "" ∨ t.length < 100)
        ∨ (∃ m ∈ jinaMarkers, containsSub m.data (t.data.map Char.toLower) = true)
        ∨ (trimChars (stripFirstHdr t.data)).length < 100))
    ∧ (containsSub "403: forbidden".data (t.data.map Char.toLower) = true →
        isJinaError t = true)
    ∧ (env.l4 = FetchOut.ok t →
        containsSub "403: forbidden".data (t.data.map Char.toLower) = true →
        layer4Cand d env url = none) := by
  have hmark : containsSub "403: forbidden".data (t.data.map Char.toLower) = true →
      isJinaError t = true := by
    intro hsub
    rw [isJinaError_eq]
    simp only [Bool.or_eq_true, decide_eq_true_eq, List.any_eq_true, List.mem_map]
    exact Or.inl (Or.inr ⟨"403: forbidden".data,
      ⟨"403: forbidden", by simp [jinaMarkers], rfl⟩, hsub⟩)
  refine ⟨?_, hmark, ?_⟩
  · constructor
    · intro h
      rw [isJinaError_eq] at h
      simp only [Bool.or_eq_true, decide_eq_true_eq, List.any_eq_true, List.mem_map] at h
      rcases h with ((h | h) | ⟨a, ⟨m, hm, rfl⟩, hf⟩) | h
      · exact Or.inl (Or.inl h)
      · exact Or.inl (Or.inr h)
      · exact Or.inr (Or.inl ⟨m, hm, hf⟩)
      · exact Or.inr (Or.inr h)
    · intro h
      rw [isJinaError_eq]
      simp only [Bool.or_eq_true, decide_eq_true_eq, List.any_eq_true, List.mem_map]
      rcases h with (h | h) | ⟨m, hm, hf⟩ | h
      · exact Or.inl (Or.inl (Or.inl h))
      · exact Or.inl (Or.inl (Or.inr h))
      · exact Or.inl (Or.inr ⟨m.data, ⟨m, hm, rfl⟩, hf⟩)
      · exact Or.inr h
  · intro henv hsub
    unfold layer4Cand
    rw [henv]
    simp [hmark hsub]

set_option maxRecDepth 8000 in
/-- Witness for C8: the concrete 114-character text ending in
`403: Forbidden` is rejected by the detector and by strategy 4, although
its transport call succeeded. -/
theorem c8_bot_wall_detector_witness :
    isJinaError demoJinaBad = true ∧ layer4Cand demoDom envJinaBad "u" = none :=
  ⟨(c8_bot_wall_detector demoDom envJinaBad "u" demoJinaBad).2.1 (by decide),
   (c8_bot_wall_detector demoDom envJinaBad "u" demoJinaBad).2.2 rfl (by decide)⟩

/-- `isSpaShell` as one boolean normal form. -/
theorem isSpaShell_eq (d : DomOracle) (html : String) :
    isSpaShell d html
      = (decide ((String.mk (trimChars (d.strippedInnerText html).data)).length < 150)
          || spaPatternsTest (d.strippedBodyHtml html).data) := by
  unfold isSpaShell
  by_cases h : (String.mk (trimChars (d.strippedInnerText html).data)).length < 150
  · simp [h]
  · simp [h]

/-- C9: the SPA-shell detector rejects an HTML candidate exactly when the
visible text remaining after stripping script/style/noscript/meta/link
elements is (after trimming) shorter than 150 characters, or the remaining
body markup matches one of the four empty-root patterns: an essentially
empty `div` with id `app`, `root` or `__next`, or a `data-page` attribute
signature; being a Lean function of the HTML string and the DOM
collaborator, its acceptance/rejection verdict is its only output. -/
theorem c9_spa_shell_detector (d : DomOracle) (html : String) :
    isSpaShell d html = true ↔
      ((String.mk (trimChars (d.strippedInnerText html).data)).length < 150
        ∨ regexTestAnywhere (matchDivAt "app".data) (d.strippedBodyHtml html).data = true
        ∨ regexTestAnywhere (matchDivAt "root".data) (d.strippedBodyHtml html).data = true
        ∨ regexTestAnywhere (matchDivAt "__next".data) (d.strippedBodyHtml html).data = true
        ∨ regexTestAnywhere matchDataPageAt (d.strippedBodyHtml html).data = true) := by
  rw [isSpaShell_eq]
  simp only [spaPatternsTest, Bool.or_eq_true, decide_eq_true_eq]
  tauto

set_option maxRecDepth 8000 in
/-- Witness for C9, both directions concretely: the empty page is rejected
for want of visible text, and a page with 150 visible characters plus an
essentially empty `<div id="app">` mount is rejected by the `app`
empty-root pattern. -/
theorem c9_spa_shell_detector_witness :
    isSpaShell demoDom "" = true ∧ isSpaShell demoDom demoShellHtml = true :=
  ⟨(c9_spa_shell_detector demoDom "").mpr (Or.inl (by decide)),
   (c9_spa_shell_detector demoDom demoShellHtml).mpr (Or.inr (Or.inl (by decide)))⟩

set_option maxRecDepth 8000 in
/-- C1, code-bug evidence: in a run accepted by strategy 1 (the final
statuses show layer 1 as the success), the provenance header carries
`layers_tried: 1` but the returned `ScrapeResult.layersTriedCount` — the
spec's `strategyIndexUsed` — is `0`, because `makeResult` hard-codes it,
contradicting the field's own meaning and spec §8. -/
theorem c1_strategy_index_bug :
    (scrapeUrl demoDom envOk1 "u").2
        = Except.ok (makeResult (cleanHtmlToMarkdown demoDom demoHtml "u" "T" 1))
    ∧ (makeResult (cleanHtmlToMarkdown demoDom demoHtml "u" "T" 1)).layersTriedCount = 0
    ∧ containsSub "layers_tried: 1".data
        (makeResult (cleanHtmlToMarkdown demoDom demoHtml "u" "T" 1)).markdown.data = true
    ∧ ((scrapeUrl demoDom envOk1 "u").1.layers.map LayerStatus.status).getD 0 Status.pending
        = Status.success :=
  ⟨rfl, rfl, by decide, by decide⟩

end Unweave
